import Mathlib

/-!
# Verification of `octant/misc.py`

Shallow embedding of the functions in `octant.misc`:

* `bin_count_tracks` — count cyclone tracks by month or winter;
* `calc_all_dens` — density aggregation over subsets and density types;
* `check_by_mask` — land/boundary proximity filter with a cached mask;
* `check_far_from_boundaries` — boundary-distance filter.

External collaborators (`great_circle`, `mask_tracks`, the per-subset
density computation of `TrackRun`) are parameters of the embedding,
treated as black boxes exactly as the module treats them.  Numeric
values are modelled by `Rat` (coordinates, thresholds) and `Int`
(counters); tracks are lists of points.
-/

namespace Octant

/-- A single timestamped point of a track, reduced to the fields the
counting code reads (`df.time.dt.year`, `df.time.dt.month`). -/
structure TimePoint where
  year : Int
  month : Nat
  deriving Repr, DecidableEq

/-- A track, as seen by `bin_count_tracks`: the chronological list of its
timestamped points. -/
abbrev OTrack := List TimePoint

/-- Python `str.upper` on one ASCII character (the granularity flags are
ASCII). -/
def upcaseChar (c : Char) : Char :=
  if 97 ≤ c.toNat ∧ c.toNat ≤ 122 then Char.ofNat (c.toNat - 32) else c

/-- Python `str.upper`, modelling `by.upper()`. -/
def upcase (s : String) : String :=
  String.mk (s.data.map upcaseChar)

/-- Worker for `uniqueFO`: `seen` holds the values already emitted. -/
def uniqueAux {α : Type} [DecidableEq α] (seen : List α) : List α → List α
  | [] => []
  | x :: xs => if x ∈ seen then uniqueAux seen xs else x :: uniqueAux (x :: seen) xs

/-- `pandas.Series.unique`: deduplication keeping the first occurrence of
each value, in order of appearance. -/
def uniqueFO {α : Type} [DecidableEq α] (l : List α) : List α :=
  uniqueAux [] l

/-- The months of a track's points, in order (`df.time.dt.month`). -/
def trackMonths (t : OTrack) : List Nat := t.map (·.month)

/-- The years of a track's points, in order (`df.time.dt.year`). -/
def trackYears (t : OTrack) : List Int := t.map (·.year)

/-- Month of a track's last point (its last active month). -/
def lastActiveMonth (t : OTrack) : Nat := (trackMonths t).getLastD 0

/-- Year of a track's first point. -/
def firstYear (t : OTrack) : Int := (trackYears t).headD 0

/-- Year of a track's last point. -/
def lastYear (t : OTrack) : Int := (trackYears t).getLastD 0

/-- The body of the month loop: `for m in track_months: counter[m - 1] += 1`
where `track_months = df.time.dt.month.unique()`. -/
def monthPass (t : OTrack) (counter : List Int) : List Int :=
  (uniqueFO (trackMonths t)).foldl
    (fun c m => c.set (m - 1) (c.getD (m - 1) 0 + 1)) counter

/-- The condition under which the winter loop increments `counter[i]`:
`track_months[-1] <= 6` selects on `track_years[0] == i + start_year + 1`,
otherwise on `track_years[-1] == i + start_year`. -/
def winterCond (start_year : Int) (t : OTrack) (i : Nat) : Bool :=
  if (uniqueFO (trackMonths t)).getLastD 0 ≤ 6 then
    decide ((uniqueFO (trackYears t)).headD 0 = (i : Int) + start_year + 1)
  else
    decide ((uniqueFO (trackYears t)).getLastD 0 = (i : Int) + start_year)

/-- The body of the winter loop for one track:
`for i in range(n_winters): if ...: counter[i] += 1`. -/
def winterPass (start_year : Int) (n_winters : Nat) (t : OTrack)
    (counter : List Int) : List Int :=
  (List.range n_winters).foldl
    (fun c i => if winterCond start_year t i then c.set i (c.getD i 0 + 1) else c)
    counter

/-- `octant.misc.bin_count_tracks`.  The `counter` local variable is only
assigned inside the two `if` branches; a flag matching neither leaves it
unbound (`UnboundLocalError` at `return counter`), modelled as `none`. -/
def bin_count_tracks (tr_gb : List OTrack) (start_year : Int) (n_winters : Nat)
    (by_ : String) : Option (List Int) :=
  let c0 : Option (List Int) := none
  let c1 : Option (List Int) :=
    if upcase by_ = "M" then
      some (tr_gb.foldl (fun c t => monthPass t c) (List.replicate 12 0))
    else c0
  let c2 : Option (List Int) :=
    if upcase by_ = "W" then
      some (tr_gb.foldl (fun c t => winterPass start_year n_winters t c)
        (List.replicate n_winters 0))
    else c1
  c2

/-- The Python value passed as the `subsets` argument of `calc_all_dens`:
`None`, a bare string, a list of subset labels, or a non-iterable object. -/
inductive PySubsets where
  | none : PySubsets
  | str : String → PySubsets
  | list : List (Option String) → PySubsets
  | nonIterable : PySubsets

/-- The face of `octant.core.TrackRun` that `calc_all_dens` reads: the
categorisation flag, the category labels, and the per-subset/per-type
density computation (`tr_obj.density(..., by=by, subset=subset)`), a black
box returning a 2D lat/lon field of type `α`. -/
structure TrackRunD (α : Type) where
  is_categorised : Bool
  cat_labels : List String
  density : Option String → String → α

/-- `octant.misc.calc_all_dens`.  Returns the labels of the `subset` and
`dens_type` dimensions together with the concatenated data, row `i` being
the slice for subset `i` and entry `j` of a row the 2D density field for
density type `j`.  The two `foldl`s mirror the two nested loops appending
to `list2` and `list1` before `xr.concat`.  When `subsets` is `None` and
the run is not categorised, the source reassigns `subsets = None` and then
fails to build the subset dimension from `None` (modelled as an error);
a bare string or a non-iterable raises `ArgumentError`. -/
def calc_all_dens {α : Type} (tr_obj : TrackRunD α) (subsets : PySubsets)
    (density_types : List String) :
    Except String (List (Option String) × List String × List (List α)) :=
  match subsets with
  | PySubsets.str _ =>
      Except.error "ArgumentError: `subsets` should be a sequence of strings"
  | PySubsets.nonIterable =>
      Except.error "ArgumentError: `subsets` should be a sequence of strings"
  | PySubsets.none =>
      if tr_obj.is_categorised then
        let subs := tr_obj.cat_labels.map Option.some
        let list1 := subs.foldl (fun acc subset =>
          acc ++ [density_types.foldl
            (fun acc2 b => acc2 ++ [tr_obj.density subset b]) []]) []
        Except.ok (subs, density_types, list1)
      else
        Except.error "TypeError: iteration over None (subsets left as None)"
  | PySubsets.list subs =>
      let list1 := subs.foldl (fun acc subset =>
        acc ++ [density_types.foldl
          (fun acc2 b => acc2 ++ [tr_obj.density subset b]) []]) []
      Except.ok (subs, density_types, list1)

/-- The optional lon/lat bounds carried by `trackrun.conf`, as read through
`getattr(trackrun.conf, attr, None)`. -/
structure BoundConf where
  lon1 : Option Rat
  lon2 : Option Rat
  lat1 : Option Rat
  lat2 : Option Rat
  deriving Repr, DecidableEq

/-- The face of `octant.core.TrackRun` that `check_by_mask` touches: the
bound configuration and the mutable `themask` attribute it assigns. -/
structure TrackRunM where
  conf : BoundConf
  themask : Option (List (List Rat))
  deriving Repr, DecidableEq

/-- A two-dimensional land-sea mask with its coordinate axes
(`lsm.longitude`, `lsm.latitude`, `lsm.values`; row `j` of `values` sits at
`latitude[j]`, column `i` at `longitude[i]`). -/
structure LSM where
  longitude : List Rat
  latitude : List Rat
  values : List (List Rat)
  deriving Repr, DecidableEq

/-- Python truthiness of `getattr(conf, attr, None)` for a numeric
attribute: `None` and `0` are falsy, any other number is truthy. -/
def pyTruthy : Option Rat → Bool
  | Option.none => false
  | some v => v != 0

/-- The `inner_idx` value at grid coordinates `(lon, lat)`: starting from
`True`, each configured bound inequality is and-ed in only when its
attribute is truthy. -/
def innerIdx (conf : BoundConf) (lon lat : Rat) : Bool :=
  let i0 := true
  let i1 := if pyTruthy conf.lon1 then i0 && decide (lon ≥ conf.lon1.getD 0) else i0
  let i2 := if pyTruthy conf.lon2 then i1 && decide (lon ≤ conf.lon2.getD 0) else i1
  let i3 := if pyTruthy conf.lat1 then i2 && decide (lat ≥ conf.lat1.getD 0) else i2
  let i4 := if pyTruthy conf.lat2 then i3 && decide (lat ≤ conf.lat2.getD 0) else i3
  i4

/-- First component of `np.meshgrid(lsm.longitude, lsm.latitude)`. -/
def meshgridLon (lsm : LSM) : List (List Rat) :=
  lsm.latitude.map (fun _ => lsm.longitude)

/-- Second component of `np.meshgrid(lsm.longitude, lsm.latitude)`. -/
def meshgridLat (lsm : LSM) : List (List Rat) :=
  lsm.latitude.map (fun la => lsm.longitude.map (fun _ => la))

/-- True when at least one of the four bound attributes is truthy, i.e.
when one of the `inner_idx &= ...` statements runs and promotes the
source's `inner_idx` from the Python scalar `True` to a numpy boolean
array. -/
def anyBoundTruthy (conf : BoundConf) : Bool :=
  pyTruthy conf.lon1 || pyTruthy conf.lon2 || pyTruthy conf.lat1 ||
    pyTruthy conf.lat2

/-- The combined mask
`((boundary_mask == 1.0) | (l_mask >= lmask_thresh)) * 1.0` on the array
path (at least one truthy bound), where `boundary_mask` is `1.0` exactly at
the cells with `~inner_idx`. -/
def maskGrid (conf : BoundConf) (lsm : LSM) (lmask_thresh : Rat) :
    List (List Rat) :=
  (List.range lsm.latitude.length).map (fun j =>
    (List.range lsm.longitude.length).map (fun i =>
      let lon := lsm.longitude.getD i 0
      let lat := lsm.latitude.getD j 0
      let land := (lsm.values.getD j []).getD i 0
      let boundary : Rat := if innerIdx conf lon lat then 0 else 1
      if decide (boundary = 1) || decide (land ≥ lmask_thresh) then (1 : Rat) else 0))

/-- The combined mask on the scalar path (no truthy bound): `inner_idx` is
still the Python bool `True`, `~True == -2`, and `boundary_mask[-2] = 1.0`
sets the whole latitude row `len - 2` of `boundary_mask` to `1.0`. -/
def maskGridScalar (lsm : LSM) (lmask_thresh : Rat) : List (List Rat) :=
  (List.range lsm.latitude.length).map (fun j =>
    (List.range lsm.longitude.length).map (fun i =>
      let land := (lsm.values.getD j []).getD i 0
      let boundary : Rat := if j = lsm.latitude.length - 2 then 1 else 0
      if decide (boundary = 1) || decide (land ≥ lmask_thresh) then (1 : Rat) else 0))

/-- The construction of `trackrun.themask`.  With at least one truthy bound
`inner_idx` is a boolean grid and `boundary_mask[~inner_idx] = 1.0` is the
per-cell assignment modelled by `maskGrid`.  With no truthy bound
`inner_idx` stays the Python scalar `True`, so `boundary_mask[~inner_idx]`
is `boundary_mask[-2]`: it sets the entire second-to-last latitude row
(`maskGridScalar`), and raises an `IndexError` when the grid has fewer than
two latitude rows. -/
def buildMask (conf : BoundConf) (lsm : LSM) (lmask_thresh : Rat) :
    Except String (List (List Rat)) :=
  if anyBoundTruthy conf then Except.ok (maskGrid conf lsm lmask_thresh)
  else if lsm.latitude.length < 2 then
    Except.error "IndexError: index -2 is out of bounds for axis 0"
  else Except.ok (maskGridScalar lsm lmask_thresh)

/-- `octant.misc.check_by_mask`.  `mask_tracks` (from `octant.utils`) is an
external black box taking the combined mask, the coordinate meshgrids, the
track's positions and the radius in metres (`rad * 1e3`), and returning the
measure of the track's lifetime spent within that radius of a masked cell.
On success, returns the updated `TrackRun` (the `themask` caching side
effect) together with the flag `mask_tracks(...) < mask_thresh`; the
`IndexError` of the scalar no-truthy-bound path on small grids is
propagated. -/
def check_by_mask
    (mask_tracks : List (List Rat) → List (List Rat) → List (List Rat) →
      List (Rat × Rat) → Rat → Rat)
    (ot : List (Rat × Rat)) (trackrun : TrackRunM) (lsm : LSM)
    (lmask_thresh rad mask_thresh : Rat) : Except String (TrackRunM × Bool) :=
  match buildMask trackrun.conf lsm lmask_thresh with
  | Except.error e => Except.error e
  | Except.ok themask =>
      let trackrun' : TrackRunM := { trackrun with themask := some themask }
      let flag := decide (mask_tracks themask (meshgridLon lsm) (meshgridLat lsm)
        ot (rad * 1000) < mask_thresh)
      Except.ok (trackrun', flag)

/-- The four arguments passed to `great_circle` for edge `i` of the box:
`args = [row.lon, row.lon, row.lat, row.lat]` with `args[2 * (i // 2)]`
replaced by the edge value `ll` (index 0 — the first longitude — for edges
0 and 1, index 2 — the first latitude — for edges 2 and 3, in the signature
`great_circle(lon1, lon2, lat1, lat2)`). -/
def edgeArgs (i : Nat) (ll lon lat : Rat) : Rat × Rat × Rat × Rat :=
  if 2 * (i / 2) = 0 then (ll, lon, lat, lat) else (lon, lon, ll, lat)

/-- `octant.misc.check_far_from_boundaries`.  `gc` is the external
`great_circle(lon1, lon2, lat1, lat2)` collaborator.  The preliminary check
rejects any track with a point outside the rectangle
`(lonlat_box[0], lonlat_box[1], lonlat_box[2], lonlat_box[3])`; the main
loop then and-accumulates, for each edge of `lonlat_box` in order, the
condition that every point's great-circle distance to its projection on
that edge exceeds `dist`. -/
def check_far_from_boundaries (gc : Rat → Rat → Rat → Rat → Rat)
    (ot : List (Rat × Rat)) (lonlat_box : List Rat) (dist : Rat) : Bool :=
  let result := ot.all (fun p =>
    decide (p.1 ≥ lonlat_box.getD 0 0) && decide (p.1 ≤ lonlat_box.getD 1 0) &&
    decide (p.2 ≥ lonlat_box.getD 2 0) && decide (p.2 ≤ lonlat_box.getD 3 0))
  if !result then false
  else
    (List.range lonlat_box.length).foldl (fun result i =>
      let ll := lonlat_box.getD i 0
      result && ot.all (fun p =>
        let a := edgeArgs i ll p.1 p.2
        decide (gc a.1 a.2.1 a.2.2.1 a.2.2.2 > dist))) result

/-- An instantiation of the great-circle black box whose distance to the
west edge of the box `[-10, 20, 60, 80]` is exactly the threshold used by
the counterexample: 5 when the first longitude argument is the west-edge
value -10, 1000 otherwise. -/
def gcCex (lon1 _lon2 _lat1 _lat2 : Rat) : Rat :=
  if lon1 = -10 then 5 else 1000

end Octant

namespace Octant

/-! ## List helper lemmas -/

theorem length_foldl_inv {β : Type} (f : List Int → β → List Int)
    (hf : ∀ c x, (f c x).length = c.length) (l : List β) (c : List Int) :
    (l.foldl f c).length = c.length := by
  induction l generalizing c with
  | nil => rfl
  | cons x xs ih => simp only [List.foldl_cons]; rw [ih, hf]

theorem getD_set_self (l : List Int) (i : Nat) (v : Int) (h : i < l.length) :
    (l.set i v).getD i 0 = v := by
  rw [List.getD_eq_getElem _ _ (by simpa using h)]
  simp [List.getElem_set]

theorem getD_set_other (l : List Int) (i j : Nat) (v : Int) (h : i ≠ j) :
    (l.set i v).getD j 0 = l.getD j 0 := by
  by_cases hj : j < l.length
  · rw [List.getD_eq_getElem _ _ (by simpa using hj), List.getD_eq_getElem _ _ hj]
    simp [List.getElem_set, h]
  · rw [List.getD_eq_default _ _ (by simpa using Nat.le_of_not_lt hj),
      List.getD_eq_default _ _ (Nat.le_of_not_lt hj)]

theorem getD_replicate_zero (n j : Nat) : (List.replicate n (0 : Int)).getD j 0 = 0 := by
  by_cases hj : j < n
  · rw [List.getD_eq_getElem _ _ (by simpa using hj)]; simp
  · rw [List.getD_eq_default _ _ (by simpa using Nat.le_of_not_lt hj)]

theorem mem_uniqueAux {α : Type} [DecidableEq α] (seen l : List α) (y : α) :
    y ∈ uniqueAux seen l ↔ y ∈ l ∧ y ∉ seen := by
  induction l generalizing seen with
  | nil => simp [uniqueAux]
  | cons x xs ih =>
    simp only [uniqueAux]
    by_cases hx : x ∈ seen
    · rw [if_pos hx, ih]
      simp only [List.mem_cons]
      constructor
      · rintro ⟨hy, hns⟩; exact ⟨Or.inr hy, hns⟩
      · rintro ⟨rfl | hy, hns⟩
        · exact absurd hx hns
        · exact ⟨hy, hns⟩
    · rw [if_neg hx]
      simp only [List.mem_cons, ih, List.mem_cons, not_or]
      constructor
      · rintro (rfl | ⟨hy, hne, hns⟩)
        · exact ⟨Or.inl rfl, hx⟩
        · exact ⟨Or.inr hy, hns⟩
      · rintro ⟨rfl | hy, hns⟩
        · exact Or.inl rfl
        · by_cases hyx : y = x
          · exact Or.inl hyx
          · exact Or.inr ⟨hy, hyx, hns⟩

theorem nodup_uniqueAux {α : Type} [DecidableEq α] (seen l : List α) :
    (uniqueAux seen l).Nodup := by
  induction l generalizing seen with
  | nil => simp [uniqueAux]
  | cons x xs ih =>
    simp only [uniqueAux]
    by_cases hx : x ∈ seen
    · simpa [hx] using ih seen
    · rw [if_neg hx]
      refine List.nodup_cons.mpr ⟨?_, ih _⟩
      intro hmem
      rcases (mem_uniqueAux _ _ _).mp hmem with ⟨_, hns⟩
      exact hns (List.mem_cons_self _ _)

theorem mem_uniqueFO {α : Type} [DecidableEq α] (l : List α) (y : α) :
    y ∈ uniqueFO l ↔ y ∈ l := by
  simp [uniqueFO, mem_uniqueAux]

theorem nodup_uniqueFO {α : Type} [DecidableEq α] (l : List α) :
    (uniqueFO l).Nodup := nodup_uniqueAux [] l

theorem headD_uniqueFO {α : Type} [DecidableEq α] (l : List α) (d : α) :
    (uniqueFO l).headD d = l.headD d := by
  cases l with
  | nil => rfl
  | cons x xs => simp [uniqueFO, uniqueAux]

/-! ## Counting lemmas for `bin_count_tracks` -/

theorem monthPass_length (t : OTrack) (c : List Int) :
    (monthPass t c).length = c.length := by
  unfold monthPass
  exact length_foldl_inv _ (fun c m => by simp) _ c

theorem winterPass_length (Y : Int) (n : Nat) (t : OTrack) (c : List Int) :
    (winterPass Y n t c).length = c.length := by
  unfold winterPass
  refine length_foldl_inv _ (fun c i => ?_) _ c
  by_cases h : winterCond Y t i <;> simp [h]

theorem foldl_month_getD (ms : List Nat) (hnd : ms.Nodup)
    (hval : ∀ m ∈ ms, 1 ≤ m ∧ m ≤ 12) (c : List Int) (hc : c.length = 12)
    (k : Nat) (hk : k < 12) :
    (ms.foldl (fun c m => c.set (m - 1) (c.getD (m - 1) 0 + 1)) c).getD k 0
      = c.getD k 0 + if (k + 1) ∈ ms then 1 else 0 := by
  induction ms generalizing c with
  | nil => simp
  | cons m ms ih =>
    have hm := hval m (List.mem_cons_self _ _)
    have hnd' := List.Nodup.of_cons hnd
    have hval' : ∀ x ∈ ms, 1 ≤ x ∧ x ≤ 12 :=
      fun x hx => hval x (List.mem_cons_of_mem _ hx)
    simp only [List.foldl_cons]
    rw [ih hnd' hval' _ (by simp [hc])]
    by_cases hkm : k + 1 = m
    · have hidx : m - 1 = k := by omega
      have hmem : (k + 1) ∉ ms := by
        rw [hkm]; exact (List.nodup_cons.mp hnd).1
      have hin : (k + 1) ∈ m :: ms := by
        rw [hkm]; exact List.mem_cons_self _ _
      rw [hidx, getD_set_self _ _ _ (by omega), if_neg hmem, if_pos hin]
      ring
    · have hidx : m - 1 ≠ k := by omega
      rw [getD_set_other _ _ _ _ hidx]
      have hiff : ((k + 1) ∈ m :: ms) ↔ ((k + 1) ∈ ms) := by
        rw [List.mem_cons]
        exact or_iff_right hkm
      rw [if_congr hiff rfl rfl]

theorem foldl_range_cond_getD (P : Nat → Bool) (n : Nat) (c : List Int)
    (j : Nat) (hj : j < c.length) :
    ((List.range n).foldl
        (fun c i => if P i then c.set i (c.getD i 0 + 1) else c) c).getD j 0
      = c.getD j 0 + if j < n ∧ P j = true then 1 else 0 := by
  induction n with
  | zero => simp
  | succ n ih =>
    rw [List.range_succ, List.foldl_append, List.foldl_cons, List.foldl_nil]
    have hlen : ((List.range n).foldl
        (fun c i => if P i then c.set i (c.getD i 0 + 1) else c) c).length
        = c.length := by
      refine length_foldl_inv _ (fun c i => ?_) _ c
      by_cases h : P i <;> simp [h]
    by_cases hcn : P n
    · rw [if_pos hcn]
      by_cases hjn : j = n
      · subst hjn
        rw [getD_set_self _ _ _ (by rw [hlen]; exact hj), ih]
        rw [if_neg (fun h => absurd h.1 (lt_irrefl j)), if_pos ⟨by omega, hcn⟩]
        ring
      · rw [getD_set_other _ _ _ _ (fun h => hjn h.symm), ih]
        have hiff : (j < n ∧ P j = true) ↔ (j < n + 1 ∧ P j = true) := by
          constructor
          · rintro ⟨h1, h2⟩; exact ⟨by omega, h2⟩
          · rintro ⟨h1, h2⟩
            refine ⟨?_, h2⟩
            omega
        rw [if_congr hiff rfl rfl]
    · rw [if_neg hcn, ih]
      have hiff : (j < n ∧ P j = true) ↔ (j < n + 1 ∧ P j = true) := by
        constructor
        · rintro ⟨h1, h2⟩; exact ⟨by omega, h2⟩
        · rintro ⟨h1, h2⟩
          refine ⟨?_, h2⟩
          rcases Nat.lt_succ_iff_lt_or_eq.mp h1 with h | rfl
          · exact h
          · exact absurd h2 (by simpa using hcn)
      rw [if_congr hiff rfl rfl]

theorem winterPass_getD (Y : Int) (t : OTrack) (n : Nat) (c : List Int)
    (j : Nat) (hj : j < c.length) :
    (winterPass Y n t c).getD j 0
      = c.getD j 0 + if j < n ∧ winterCond Y t j = true then 1 else 0 := by
  unfold winterPass
  exact foldl_range_cond_getD (winterCond Y t) n c j hj

theorem winterFold_getD (Y : Int) (n : Nat) (tracks : List OTrack) (c : List Int)
    (j : Nat) (hj : j < c.length) (hjn : j < n) :
    (tracks.foldl (fun c t => winterPass Y n t c) c).getD j 0
      = c.getD j 0 + ((tracks.filter (fun t => winterCond Y t j)).length : Int) := by
  induction tracks generalizing c with
  | nil => simp
  | cons t ts ih =>
    simp only [List.foldl_cons]
    rw [ih _ (by rw [winterPass_length]; exact hj)]
    rw [winterPass_getD _ _ _ _ _ hj]
    by_cases h : winterCond Y t j
    · rw [if_pos (⟨hjn, h⟩ : j < n ∧ winterCond Y t j = true)]
      simp only [List.filter_cons, h, if_true, List.length_cons]
      push_cast
      ring
    · rw [if_neg (fun hx => absurd hx.2 (by simpa using h))]
      simp [List.filter_cons, h]

theorem monthFold_getD (tracks : List OTrack) (c : List Int) (hc : c.length = 12)
    (hval : ∀ t ∈ tracks, ∀ m ∈ trackMonths t, 1 ≤ m ∧ m ≤ 12)
    (k : Nat) (hk : k < 12) :
    (tracks.foldl (fun c t => monthPass t c) c).getD k 0
      = c.getD k 0
        + ((tracks.filter (fun t => decide ((k + 1) ∈ trackMonths t))).length : Int) := by
  induction tracks generalizing c with
  | nil => simp
  | cons t ts ih =>
    have hval' : ∀ t ∈ ts, ∀ m ∈ trackMonths t, 1 ≤ m ∧ m ≤ 12 :=
      fun t ht => hval t (List.mem_cons_of_mem _ ht)
    simp only [List.foldl_cons]
    rw [ih _ (by rw [monthPass_length]; exact hc) hval']
    unfold monthPass
    rw [foldl_month_getD _ (nodup_uniqueFO _)
      (fun m hm => hval t (List.mem_cons_self _ _) m ((mem_uniqueFO _ _).mp hm)) _ hc _ hk]
    by_cases h : (k + 1) ∈ trackMonths t
    · rw [if_pos ((mem_uniqueFO _ _).mpr h)]
      have hdec : (decide ((k + 1) ∈ trackMonths t)) = true := by simpa using h
      simp only [List.filter_cons, hdec, if_true, List.length_cons]
      push_cast
      ring
    · rw [if_neg (fun hx => h ((mem_uniqueFO _ _).mp hx))]
      simp [List.filter_cons, h]

theorem foldl_append_map {α β : Type} (f : α → β) (l : List α) (acc : List β) :
    l.foldl (fun a x => a ++ [f x]) acc = acc ++ l.map f := by
  induction l generalizing acc with
  | nil => simp
  | cons x xs ih => simp [ih]

theorem calc_all_dens_list_eq {α : Type} (tr_obj : TrackRunD α)
    (subs : List (Option String)) (types : List String) :
    calc_all_dens tr_obj (PySubsets.list subs) types
      = Except.ok (subs, types,
          subs.map (fun s => types.map (fun b => tr_obj.density s b))) := by
  simp only [calc_all_dens]
  rw [foldl_append_map]
  have hinner : (fun s => types.foldl
        (fun acc2 b => acc2 ++ [tr_obj.density s b]) ([] : List α))
      = fun s => types.map (fun b => tr_obj.density s b) := by
    funext s
    simpa using foldl_append_map (fun b => tr_obj.density s b) types []
  rw [hinner]
  simp

/-! ## Claim theorems for `bin_count_tracks` and `calc_all_dens` -/

/-- Claim C1: with `by="W"`, start year `Y`, `n_winters = N`, the result is an
`N`-element integer array; a track whose last active month is at most June
increments bucket `i` exactly when its first year is `Y + 1 + i`, otherwise
exactly when its last year is `Y + i`; unmatched tracks contribute nothing and
cause no error.  The hypothesis states that the deduplicated month/year series
end in the track's last month and year, which holds for chronologically
ordered tracks. -/
theorem bin_count_tracks_winter_spec (tracks : List OTrack) (Y : Int) (N : Nat)
    (hbridge : ∀ t ∈ tracks,
      (uniqueFO (trackMonths t)).getLastD 0 = lastActiveMonth t ∧
      (uniqueFO (trackYears t)).getLastD 0 = lastYear t) :
    ∃ c : List Int, bin_count_tracks tracks Y N "W" = some c ∧ c.length = N ∧
      ∀ i : Nat, i < N →
        c.getD i 0 = ((tracks.filter (fun t =>
            if lastActiveMonth t ≤ 6 then decide (firstYear t = Y + 1 + (i : Int))
            else decide (lastYear t = Y + (i : Int)))).length : Int) := by
  refine ⟨tracks.foldl (fun c t => winterPass Y N t c) (List.replicate N 0), ?_, ?_, ?_⟩
  · have h1 : upcase "W" = "W" := by decide
    simp [bin_count_tracks, h1]
  · rw [length_foldl_inv _ (fun c t => winterPass_length Y N t c)]
    simp
  · intro i hi
    rw [winterFold_getD Y N tracks _ i (by simpa using hi) hi, getD_replicate_zero,
      zero_add]
    congr 1
    refine congrArg List.length (List.filter_congr ?_)
    intro t ht
    obtain ⟨hm, hy⟩ := hbridge t ht
    unfold winterCond
    rw [hm, hy, headD_uniqueFO]
    have e1 : (i : Int) + Y + 1 = Y + 1 + i := by ring
    have e2 : (i : Int) + Y = Y + i := by ring
    rw [e1, e2]
    rfl

theorem bin_count_tracks_winter_spec_witness :
    ∃ c : List Int,
      bin_count_tracks [[⟨2001, 3⟩], [⟨2002, 11⟩]] 2000 3 "W" = some c ∧
      c.length = 3 := by
  obtain ⟨c, h1, h2, h3⟩ :=
    bin_count_tracks_winter_spec [[⟨2001, 3⟩], [⟨2002, 11⟩]] 2000 3 (by decide)
  exact ⟨c, h1, h2⟩

/-- Claim C5: with `by="M"`, the result is a 12-element integer array; for
each track, every calendar month touched by the track increments bucket
`m - 1` by exactly one, independently of how many points fall in that
month. -/
theorem bin_count_tracks_month_spec (tracks : List OTrack) (Y : Int) (N : Nat)
    (hval : ∀ t ∈ tracks, ∀ m ∈ trackMonths t, 1 ≤ m ∧ m ≤ 12) :
    ∃ c : List Int, bin_count_tracks tracks Y N "M" = some c ∧ c.length = 12 ∧
      ∀ m : Nat, 1 ≤ m → m ≤ 12 →
        c.getD (m - 1) 0
          = ((tracks.filter (fun t => decide (m ∈ trackMonths t))).length : Int) := by
  refine ⟨tracks.foldl (fun c t => monthPass t c) (List.replicate 12 0), ?_, ?_, ?_⟩
  · have h1 : upcase "M" = "M" := by decide
    have h2 : upcase "M" ≠ "W" := by decide
    simp [bin_count_tracks, h1, h2]
  · rw [length_foldl_inv _ (fun c t => monthPass_length t c)]
    simp
  · intro m h1 h12
    have hk : m - 1 < 12 := by omega
    rw [monthFold_getD tracks _ (by simp) hval _ hk, getD_replicate_zero, zero_add]
    have hsucc : m - 1 + 1 = m := by omega
    simp only [hsucc]

theorem bin_count_tracks_month_spec_witness :
    ∃ c : List Int,
      bin_count_tracks [[⟨2000, 3⟩, ⟨2000, 3⟩, ⟨2000, 4⟩]] 2000 3 "M" = some c ∧
      c.length = 12 := by
  obtain ⟨c, h1, h2, h3⟩ :=
    bin_count_tracks_month_spec [[⟨2000, 3⟩, ⟨2000, 3⟩, ⟨2000, 4⟩]] 2000 3 (by decide)
  exact ⟨c, h1, h2⟩

/-- Claim C7: a granularity flag whose uppercase form is neither `"M"` nor
`"W"` makes `bin_count_tracks` fail with an unassigned `counter` local
(modelled as `none`) instead of an explicit invalid-argument error. -/
theorem bin_count_tracks_bad_flag (tracks : List OTrack) (Y : Int) (N : Nat)
    (b : String) (hM : upcase b ≠ "M") (hW : upcase b ≠ "W") :
    bin_count_tracks tracks Y N b = none := by
  simp [bin_count_tracks, hM, hW]

theorem bin_count_tracks_bad_flag_witness :
    bin_count_tracks [] 2000 3 "x" = none :=
  bin_count_tracks_bad_flag [] 2000 3 "x" (by decide) (by decide)

/-- Claim C6: for a given subsets list, `calc_all_dens` returns data whose
first dimension enumerates the subsets in input order and whose second
dimension enumerates the density types in input order, each slice being
exactly the per-subset/per-type density result of the `TrackRun`. -/
theorem calc_all_dens_dims_spec {α : Type} [Inhabited α] (tr_obj : TrackRunD α)
    (subs : List (Option String)) (types : List String) :
    ∃ (subset_dim : List (Option String)) (dens_dim : List String)
      (data : List (List α)),
      calc_all_dens tr_obj (PySubsets.list subs) types
        = Except.ok (subset_dim, dens_dim, data) ∧
      subset_dim = subs ∧ dens_dim = types ∧
      data.length = subs.length ∧
      (∀ row ∈ data, row.length = types.length) ∧
      (∀ i j : Nat, i < subs.length → j < types.length →
        (data.getD i []).getD j default
          = tr_obj.density (subs.getD i Option.none) (types.getD j "")) := by
  refine ⟨subs, types, _, calc_all_dens_list_eq tr_obj subs types, rfl, rfl, ?_, ?_, ?_⟩
  · simp
  · intro row hrow
    simp only [List.mem_map] at hrow
    obtain ⟨s, _, rfl⟩ := hrow
    simp
  · intro i j hi hj
    have h1 : (subs.map (fun s => types.map (fun b => tr_obj.density s b))).getD i []
        = types.map (fun b => tr_obj.density (subs.getD i Option.none) b) := by
      rw [List.getD_eq_getElem _ _ (by simpa using hi), List.getD_eq_getElem _ _ hi,
        List.getElem_map]
    rw [h1, List.getD_eq_getElem _ _ (by simpa using hj),
      List.getD_eq_getElem _ _ hj, List.getElem_map]

theorem calc_all_dens_dims_spec_witness :
    ∃ (subset_dim : List (Option String)) (dens_dim : List String)
      (data : List (List Int)),
      calc_all_dens (TrackRunD.mk true ["a"] (fun _ _ => (7 : Int)))
          (PySubsets.list [some "a"]) ["point", "track"]
        = Except.ok (subset_dim, dens_dim, data) ∧
      subset_dim = [some "a"] ∧ dens_dim = ["point", "track"] ∧
      data.length = 1 := by
  obtain ⟨sd, dd, data, h1, h2, h3, h4, _⟩ :=
    calc_all_dens_dims_spec (TrackRunD.mk true ["a"] (fun _ _ => (7 : Int)))
      [some "a"] ["point", "track"]
  exact ⟨sd, dd, data, h1, h2, h3, by simpa using h4⟩

/-- Claim C8: a `subsets` argument that is a bare string or a non-iterable
makes `calc_all_dens` fail immediately with an `ArgumentError`, with no
partial result. -/
theorem calc_all_dens_invalid_subsets {α : Type} (tr_obj : TrackRunD α)
    (s : String) (types : List String) :
    calc_all_dens tr_obj (PySubsets.str s) types
        = Except.error "ArgumentError: `subsets` should be a sequence of strings" ∧
      calc_all_dens tr_obj PySubsets.nonIterable types
        = Except.error "ArgumentError: `subsets` should be a sequence of strings" :=
  ⟨rfl, rfl⟩

/-- Claim C3 (code bug): on a non-categorised `TrackRun` with `subsets=None`,
the source reassigns `subsets = None` (a no-op) and then fails to build the
subset dimension from `None`; it does not treat the run as a single unnamed
subset. -/
theorem calc_all_dens_uncategorised_fails {α : Type} (tr_obj : TrackRunD α)
    (types : List String) (h : tr_obj.is_categorised = false) :
    calc_all_dens tr_obj PySubsets.none types
      = Except.error "TypeError: iteration over None (subsets left as None)" := by
  simp [calc_all_dens, h]

theorem calc_all_dens_uncategorised_fails_witness :
    calc_all_dens (TrackRunD.mk false [] (fun _ _ => (0 : Int)))
        PySubsets.none ["point"]
      = Except.error "TypeError: iteration over None (subsets left as None)" :=
  calc_all_dens_uncategorised_fails _ ["point"] rfl

/-! ## Claim theorems for `check_by_mask` -/

theorem maskGrid_cell (conf : BoundConf) (lsm : LSM) (lmask_thresh : Rat)
    (j i : Nat) (hj : j < lsm.latitude.length) (hi : i < lsm.longitude.length) :
    ((maskGrid conf lsm lmask_thresh).getD j []).getD i 0
      = if ¬ innerIdx conf (lsm.longitude.getD i 0) (lsm.latitude.getD j 0) = true
          ∨ (lsm.values.getD j []).getD i 0 ≥ lmask_thresh
        then 1 else 0 := by
  have hrow : (maskGrid conf lsm lmask_thresh).getD j []
      = (List.range lsm.longitude.length).map (fun i =>
          let lon := lsm.longitude.getD i 0
          let lat := lsm.latitude.getD j 0
          let land := (lsm.values.getD j []).getD i 0
          let boundary : Rat := if innerIdx conf lon lat then 0 else 1
          if decide (boundary = 1) || decide (land ≥ lmask_thresh)
            then (1 : Rat) else 0) := by
    unfold maskGrid
    rw [List.getD_eq_getElem _ _ (by simpa using hj), List.getElem_map,
      List.getElem_range]
  rw [hrow, List.getD_eq_getElem _ _ (by simpa using hi), List.getElem_map,
    List.getElem_range]
  by_cases hin : innerIdx conf (lsm.longitude.getD i 0) (lsm.latitude.getD j 0)
  · by_cases hl : (lsm.values.getD j []).getD i 0 ≥ lmask_thresh <;>
      simp [hin, hl]
  · by_cases hl : (lsm.values.getD j []).getD i 0 ≥ lmask_thresh <;>
      simp [hin, hl]

theorem check_by_mask_eq_ok
    (mask_tracks : List (List Rat) → List (List Rat) → List (List Rat) →
      List (Rat × Rat) → Rat → Rat)
    (ot : List (Rat × Rat)) (trackrun : TrackRunM) (lsm : LSM)
    (lmask_thresh rad mask_thresh : Rat) (mask : List (List Rat))
    (hb : buildMask trackrun.conf lsm lmask_thresh = Except.ok mask) :
    check_by_mask mask_tracks ot trackrun lsm lmask_thresh rad mask_thresh
      = Except.ok ({ trackrun with themask := some mask },
          decide (mask_tracks mask (meshgridLon lsm) (meshgridLat lsm) ot
            (rad * 1000) < mask_thresh)) := by
  unfold check_by_mask
  rw [hb]

theorem check_by_mask_eq_error
    (mask_tracks : List (List Rat) → List (List Rat) → List (List Rat) →
      List (Rat × Rat) → Rat → Rat)
    (ot : List (Rat × Rat)) (trackrun : TrackRunM) (lsm : LSM)
    (lmask_thresh rad mask_thresh : Rat) (e : String)
    (hb : buildMask trackrun.conf lsm lmask_thresh = Except.error e) :
    check_by_mask mask_tracks ot trackrun lsm lmask_thresh rad mask_thresh
      = Except.error e := by
  unfold check_by_mask
  rw [hb]

/-- Claim C4, original statement refuted at a concrete input traced through
the source: with no truthy bound, `inner_idx` stays the Python scalar
`True`, `~True == -2`, and `boundary_mask[-2] = 1.0` marks the
second-to-last latitude row.  On a 2x2 all-sea grid, cell (0, 0) gets mask
value 1.0 although it lies inside the (unconstrained) inner region and its
land fraction 0 is below the threshold 1; and on a grid with a single
latitude row the call raises an `IndexError` instead of returning a
flag. -/
theorem check_by_mask_cex :
    (buildMask ⟨Option.none, Option.none, Option.none, Option.none⟩
        ⟨[10, 20], [60, 70], [[0, 0], [0, 0]]⟩ 1
      = Except.ok [[1, 1], [0, 0]])
    ∧ (innerIdx ⟨Option.none, Option.none, Option.none, Option.none⟩ 10 60 = true)
    ∧ ¬ ((0 : Rat) ≥ 1)
    ∧ (check_by_mask (fun _ _ _ _ _ => (0 : Rat)) []
        ⟨⟨Option.none, Option.none, Option.none, Option.none⟩, Option.none⟩
        ⟨[10], [60], [[0]]⟩ 1 50 (1/2)
      = Except.error "IndexError: index -2 is out of bounds for axis 0") :=
  ⟨rfl, by decide, by decide, rfl⟩

/-- Claim C4 (amended): whenever at least one bound on `trackrun.conf` is
truthy, `check_by_mask` builds the combined mask that is `1.0` exactly at
cells outside the configured inner region or with land fraction at least
`lmask_thresh` (`0.0` elsewhere), stores it on the `TrackRun` as `themask`,
and returns true iff the external masked-distance measure is strictly less
than `mask_thresh`. -/
theorem check_by_mask_spec
    (mask_tracks : List (List Rat) → List (List Rat) → List (List Rat) →
      List (Rat × Rat) → Rat → Rat)
    (ot : List (Rat × Rat)) (trackrun : TrackRunM) (lsm : LSM)
    (lmask_thresh rad mask_thresh : Rat)
    (htruthy : anyBoundTruthy trackrun.conf = true)
    (j i : Nat) (hj : j < lsm.latitude.length) (hi : i < lsm.longitude.length) :
    ∃ (mask : List (List Rat)) (flag : Bool),
      check_by_mask mask_tracks ot trackrun lsm lmask_thresh rad mask_thresh
          = Except.ok ({ trackrun with themask := some mask }, flag)
      ∧ ((mask.getD j []).getD i 0
          = if ¬ innerIdx trackrun.conf (lsm.longitude.getD i 0)
                (lsm.latitude.getD j 0) = true
              ∨ (lsm.values.getD j []).getD i 0 ≥ lmask_thresh
            then 1 else 0)
      ∧ (flag = true
          ↔ mask_tracks mask (meshgridLon lsm) (meshgridLat lsm) ot (rad * 1000)
              < mask_thresh) := by
  have hb : buildMask trackrun.conf lsm lmask_thresh
      = Except.ok (maskGrid trackrun.conf lsm lmask_thresh) := by
    unfold buildMask
    rw [if_pos htruthy]
  refine ⟨maskGrid trackrun.conf lsm lmask_thresh,
    decide (mask_tracks (maskGrid trackrun.conf lsm lmask_thresh)
      (meshgridLon lsm) (meshgridLat lsm) ot (rad * 1000) < mask_thresh),
    ?_, maskGrid_cell _ _ _ _ _ hj hi, by simp⟩
  exact check_by_mask_eq_ok mask_tracks ot trackrun lsm lmask_thresh rad
    mask_thresh _ hb

theorem check_by_mask_spec_witness :
    ∃ (mask : List (List Rat)) (flag : Bool),
      check_by_mask (fun _ _ _ _ _ => (0 : Rat)) []
          ⟨⟨some 5, Option.none, Option.none, Option.none⟩, Option.none⟩
          ⟨[10], [60], [[1]]⟩ 1 50 (1/2)
        = Except.ok
            (⟨⟨some 5, Option.none, Option.none, Option.none⟩, some mask⟩, flag) := by
  obtain ⟨mask, flag, h1, h2, h3⟩ :=
    check_by_mask_spec (fun _ _ _ _ _ => (0 : Rat)) []
      ⟨⟨some 5, Option.none, Option.none, Option.none⟩, Option.none⟩
      ⟨[10], [60], [[1]]⟩ 1 50 (1/2) (by decide) 0 0 (by decide) (by decide)
  exact ⟨mask, flag, h1⟩

/-- Claim C9: `check_by_mask` is deterministic and its `themask` caching
side effect does not alter the result: when a call succeeds, running it
again on the `TrackRun` it returned, with identical arguments, yields the
same flag and the same state. -/
theorem check_by_mask_idempotent
    (mask_tracks : List (List Rat) → List (List Rat) → List (List Rat) →
      List (Rat × Rat) → Rat → Rat)
    (ot : List (Rat × Rat)) (trackrun : TrackRunM) (lsm : LSM)
    (lmask_thresh rad mask_thresh : Rat) (tr1 : TrackRunM) (flag1 : Bool)
    (h : check_by_mask mask_tracks ot trackrun lsm lmask_thresh rad mask_thresh
      = Except.ok (tr1, flag1)) :
    check_by_mask mask_tracks ot tr1 lsm lmask_thresh rad mask_thresh
      = Except.ok (tr1, flag1) := by
  cases hb : buildMask trackrun.conf lsm lmask_thresh with
  | error e =>
      rw [check_by_mask_eq_error mask_tracks ot trackrun lsm lmask_thresh rad
        mask_thresh e hb] at h
      exact absurd h (by simp)
  | ok mask =>
      rw [check_by_mask_eq_ok mask_tracks ot trackrun lsm lmask_thresh rad
        mask_thresh mask hb] at h
      simp only [Except.ok.injEq, Prod.mk.injEq] at h
      obtain ⟨h1, h2⟩ := h
      subst h1
      subst h2
      exact check_by_mask_eq_ok mask_tracks ot _ lsm lmask_thresh rad
        mask_thresh mask hb

theorem check_by_mask_idempotent_witness :
    check_by_mask (fun _ _ _ _ _ => (0 : Rat)) []
        ⟨⟨some 5, Option.none, Option.none, Option.none⟩, some [[1]]⟩
        ⟨[10], [60], [[1]]⟩ 1 50 (1/2)
      = Except.ok
          (⟨⟨some 5, Option.none, Option.none, Option.none⟩, some [[1]]⟩, true) :=
  check_by_mask_idempotent (fun _ _ _ _ _ => (0 : Rat)) []
    ⟨⟨some 5, Option.none, Option.none, Option.none⟩, Option.none⟩
    ⟨[10], [60], [[1]]⟩ 1 50 (1/2)
    ⟨⟨some 5, Option.none, Option.none, Option.none⟩, some [[1]]⟩ true
    (by with_unfolding_all rfl)

theorem innerIdx_lon1_falsy (conf : BoundConf) (lon lat : Rat) :
    innerIdx { conf with lon1 := some 0 } lon lat
      = innerIdx { conf with lon1 := Option.none } lon lat := by
  simp [innerIdx, pyTruthy]

theorem innerIdx_lon2_falsy (conf : BoundConf) (lon lat : Rat) :
    innerIdx { conf with lon2 := some 0 } lon lat
      = innerIdx { conf with lon2 := Option.none } lon lat := by
  simp [innerIdx, pyTruthy]

theorem innerIdx_lat1_falsy (conf : BoundConf) (lon lat : Rat) :
    innerIdx { conf with lat1 := some 0 } lon lat
      = innerIdx { conf with lat1 := Option.none } lon lat := by
  simp [innerIdx, pyTruthy]

theorem innerIdx_lat2_falsy (conf : BoundConf) (lon lat : Rat) :
    innerIdx { conf with lat2 := some 0 } lon lat
      = innerIdx { conf with lat2 := Option.none } lon lat := by
  simp [innerIdx, pyTruthy]

theorem anyBoundTruthy_lon1_falsy (conf : BoundConf) :
    anyBoundTruthy { conf with lon1 := some 0 }
      = anyBoundTruthy { conf with lon1 := Option.none } := by
  simp [anyBoundTruthy, pyTruthy]

theorem anyBoundTruthy_lon2_falsy (conf : BoundConf) :
    anyBoundTruthy { conf with lon2 := some 0 }
      = anyBoundTruthy { conf with lon2 := Option.none } := by
  simp [anyBoundTruthy, pyTruthy]

theorem anyBoundTruthy_lat1_falsy (conf : BoundConf) :
    anyBoundTruthy { conf with lat1 := some 0 }
      = anyBoundTruthy { conf with lat1 := Option.none } := by
  simp [anyBoundTruthy, pyTruthy]

theorem anyBoundTruthy_lat2_falsy (conf : BoundConf) :
    anyBoundTruthy { conf with lat2 := some 0 }
      = anyBoundTruthy { conf with lat2 := Option.none } := by
  simp [anyBoundTruthy, pyTruthy]

theorem buildMask_congr (c1 c2 : BoundConf) (lsm : LSM) (lmask_thresh : Rat)
    (hin : ∀ lon lat, innerIdx c1 lon lat = innerIdx c2 lon lat)
    (hany : anyBoundTruthy c1 = anyBoundTruthy c2) :
    buildMask c1 lsm lmask_thresh = buildMask c2 lsm lmask_thresh := by
  unfold buildMask maskGrid
  rw [hany]
  simp only [hin]

/-- Claim C10: a configured bound whose value is `0` (falsy) is treated
exactly like an absent bound: its inequality is not applied when building
the inner region, so the whole mask construction — array path, scalar
`~True` path and its `IndexError` included — coincides with the unset-bound
run, and hence so do the stored `themask` and the returned flag. -/
theorem check_by_mask_falsy_bound_spec
    (mask_tracks : List (List Rat) → List (List Rat) → List (List Rat) →
      List (Rat × Rat) → Rat → Rat)
    (ot : List (Rat × Rat)) (m : Option (List (List Rat))) (lsm : LSM)
    (conf : BoundConf) (lmask_thresh rad mask_thresh : Rat) :
    (buildMask { conf with lon1 := some 0 } lsm lmask_thresh
        = buildMask { conf with lon1 := Option.none } lsm lmask_thresh)
    ∧ (buildMask { conf with lon2 := some 0 } lsm lmask_thresh
        = buildMask { conf with lon2 := Option.none } lsm lmask_thresh)
    ∧ (buildMask { conf with lat1 := some 0 } lsm lmask_thresh
        = buildMask { conf with lat1 := Option.none } lsm lmask_thresh)
    ∧ (buildMask { conf with lat2 := some 0 } lsm lmask_thresh
        = buildMask { conf with lat2 := Option.none } lsm lmask_thresh)
    ∧ ((check_by_mask mask_tracks ot ⟨{ conf with lon1 := some 0 }, m⟩ lsm
          lmask_thresh rad mask_thresh).map (fun r => (r.1.themask, r.2))
        = (check_by_mask mask_tracks ot ⟨{ conf with lon1 := Option.none }, m⟩ lsm
            lmask_thresh rad mask_thresh).map (fun r => (r.1.themask, r.2))) := by
  have h1 := buildMask_congr _ _ lsm lmask_thresh (innerIdx_lon1_falsy conf)
    (anyBoundTruthy_lon1_falsy conf)
  have h2 := buildMask_congr _ _ lsm lmask_thresh (innerIdx_lon2_falsy conf)
    (anyBoundTruthy_lon2_falsy conf)
  have h3 := buildMask_congr _ _ lsm lmask_thresh (innerIdx_lat1_falsy conf)
    (anyBoundTruthy_lat1_falsy conf)
  have h4 := buildMask_congr _ _ lsm lmask_thresh (innerIdx_lat2_falsy conf)
    (anyBoundTruthy_lat2_falsy conf)
  refine ⟨h1, h2, h3, h4, ?_⟩
  cases hb : buildMask { conf with lon1 := Option.none } lsm lmask_thresh with
  | error e =>
      rw [check_by_mask_eq_error mask_tracks ot ⟨{ conf with lon1 := some 0 }, m⟩
          lsm lmask_thresh rad mask_thresh e (h1.trans hb),
        check_by_mask_eq_error mask_tracks ot ⟨{ conf with lon1 := Option.none }, m⟩
          lsm lmask_thresh rad mask_thresh e hb]
  | ok mask =>
      rw [check_by_mask_eq_ok mask_tracks ot ⟨{ conf with lon1 := some 0 }, m⟩
          lsm lmask_thresh rad mask_thresh mask (h1.trans hb),
        check_by_mask_eq_ok mask_tracks ot ⟨{ conf with lon1 := Option.none }, m⟩
          lsm lmask_thresh rad mask_thresh mask hb]
      simp [Except.map]

/-! ## Claim theorems for `check_far_from_boundaries` -/

theorem check_far_from_boundaries_form (gc : Rat → Rat → Rat → Rat → Rat)
    (ot : List (Rat × Rat)) (lon_min lon_max lat_min lat_max dist : Rat) :
    check_far_from_boundaries gc ot [lon_min, lon_max, lat_min, lat_max] dist
      = (ot.all (fun p => decide (p.1 ≥ lon_min) && decide (p.1 ≤ lon_max) &&
            decide (p.2 ≥ lat_min) && decide (p.2 ≤ lat_max))
        && ot.all (fun p => decide (gc lon_min p.1 p.2 p.2 > dist))
        && ot.all (fun p => decide (gc lon_max p.1 p.2 p.2 > dist))
        && ot.all (fun p => decide (gc p.1 p.1 lat_min p.2 > dist))
        && ot.all (fun p => decide (gc p.1 p.1 lat_max p.2 > dist))) := by
  have key : check_far_from_boundaries gc ot [lon_min, lon_max, lat_min, lat_max] dist
      = (if !(ot.all (fun p => decide (p.1 ≥ lon_min) && decide (p.1 ≤ lon_max) &&
              decide (p.2 ≥ lat_min) && decide (p.2 ≤ lat_max))) then false
         else ((((ot.all (fun p => decide (p.1 ≥ lon_min) && decide (p.1 ≤ lon_max) &&
              decide (p.2 ≥ lat_min) && decide (p.2 ≤ lat_max))
            && ot.all (fun p => decide (gc lon_min p.1 p.2 p.2 > dist)))
            && ot.all (fun p => decide (gc lon_max p.1 p.2 p.2 > dist)))
            && ot.all (fun p => decide (gc p.1 p.1 lat_min p.2 > dist)))
            && ot.all (fun p => decide (gc p.1 p.1 lat_max p.2 > dist)))) := by
    with_unfolding_all rfl
  rw [key]
  cases hR : ot.all (fun p => decide (p.1 ≥ lon_min) && decide (p.1 ≤ lon_max) &&
      decide (p.2 ≥ lat_min) && decide (p.2 ≤ lat_max)) with
  | false => simp
  | true => simp

/-- Claim C2 (amended): `check_far_from_boundaries` returns true iff every
track point lies inside the box and the great-circle distance from every
point to its projection on each of the four edges is strictly greater than
`dist`; a point lying exactly on an edge yields false (given that the
great-circle distance from a point to itself is 0 and `dist` is
non-negative). -/
theorem check_far_from_boundaries_spec (gc : Rat → Rat → Rat → Rat → Rat)
    (ot : List (Rat × Rat)) (lon_min lon_max lat_min lat_max dist : Rat)
    (hgc : ∀ l t : Rat, gc l l t t = 0) (hdist : 0 ≤ dist) :
    (check_far_from_boundaries gc ot [lon_min, lon_max, lat_min, lat_max] dist = true
      ↔ (∀ p ∈ ot, p.1 ≥ lon_min ∧ p.1 ≤ lon_max ∧ p.2 ≥ lat_min ∧ p.2 ≤ lat_max)
        ∧ (∀ p ∈ ot, gc lon_min p.1 p.2 p.2 > dist ∧ gc lon_max p.1 p.2 p.2 > dist
            ∧ gc p.1 p.1 lat_min p.2 > dist ∧ gc p.1 p.1 lat_max p.2 > dist))
    ∧ (∀ p ∈ ot, (p.1 = lon_min ∨ p.1 = lon_max ∨ p.2 = lat_min ∨ p.2 = lat_max) →
        check_far_from_boundaries gc ot [lon_min, lon_max, lat_min, lat_max] dist
          = false) := by
  constructor
  · rw [check_far_from_boundaries_form]
    simp only [Bool.and_eq_true, List.all_eq_true, decide_eq_true_eq]
    constructor
    · rintro ⟨⟨⟨⟨hbox, h0⟩, h1⟩, h2⟩, h3⟩
      refine ⟨?_, fun p hp => ⟨h0 p hp, h1 p hp, h2 p hp, h3 p hp⟩⟩
      intro p hp
      rcases hbox p hp with ⟨⟨⟨a, b⟩, c⟩, d⟩
      exact ⟨a, b, c, d⟩
    · rintro ⟨hbox, hd⟩
      refine ⟨⟨⟨⟨?_, fun p hp => (hd p hp).1⟩, fun p hp => (hd p hp).2.1⟩,
        fun p hp => (hd p hp).2.2.1⟩, fun p hp => (hd p hp).2.2.2⟩
      intro p hp
      rcases hbox p hp with ⟨a, b, c, d⟩
      exact ⟨⟨⟨a, b⟩, c⟩, d⟩
  · intro p hp hedge
    rw [check_far_from_boundaries_form]
    rcases hedge with h | h | h | h
    · have he : ot.all (fun q => decide (gc lon_min q.1 q.2 q.2 > dist)) = false := by
        rw [List.all_eq_false]
        refine ⟨p, hp, ?_⟩
        rw [← h, hgc]
        simpa using not_lt.mpr hdist
      simp [he]
    · have he : ot.all (fun q => decide (gc lon_max q.1 q.2 q.2 > dist)) = false := by
        rw [List.all_eq_false]
        refine ⟨p, hp, ?_⟩
        rw [← h, hgc]
        simpa using not_lt.mpr hdist
      simp [he]
    · have he : ot.all (fun q => decide (gc q.1 q.1 lat_min q.2 > dist)) = false := by
        rw [List.all_eq_false]
        refine ⟨p, hp, ?_⟩
        rw [← h, hgc]
        simpa using not_lt.mpr hdist
      simp [he]
    · have he : ot.all (fun q => decide (gc q.1 q.1 lat_max q.2 > dist)) = false := by
        rw [List.all_eq_false]
        refine ⟨p, hp, ?_⟩
        rw [← h, hgc]
        simpa using not_lt.mpr hdist
      simp [he]

theorem check_far_from_boundaries_spec_witness :
    check_far_from_boundaries
        (fun a b c d => if a = b ∧ c = d then (0 : Rat) else 5)
        [((0 : Rat), (70 : Rat))] [-10, 20, 60, 80] 1 = true := by
  have h := check_far_from_boundaries_spec
    (fun a b c d => if a = b ∧ c = d then (0 : Rat) else 5)
    [((0 : Rat), (70 : Rat))] (-10) 20 60 80 1
    (fun l t => by simp) (by decide)
  rw [h.1]
  refine ⟨?_, ?_⟩ <;> decide

/-- The original final clause of claim C2 is false on the code: a track
entirely inside the box whose distance to every edge is at least `dist`
(here exactly `dist` at the west edge) is rejected, because the source
requires the distance to be strictly greater than `dist`. -/
theorem check_far_from_boundaries_cex :
    (∀ p ∈ [((0 : Rat), (70 : Rat))],
      p.1 ≥ -10 ∧ p.1 ≤ 20 ∧ p.2 ≥ 60 ∧ p.2 ≤ 80)
    ∧ (∀ p ∈ [((0 : Rat), (70 : Rat))],
      gcCex (-10) p.1 p.2 p.2 ≥ 5 ∧ gcCex 20 p.1 p.2 p.2 ≥ 5
      ∧ gcCex p.1 p.1 60 p.2 ≥ 5 ∧ gcCex p.1 p.1 80 p.2 ≥ 5)
    ∧ check_far_from_boundaries gcCex [((0 : Rat), (70 : Rat))]
        [-10, 20, 60, 80] 5 = false := by
  refine ⟨?_, ?_, ?_⟩ <;> decide

example : upcase "w" = "W" := by decide

example : uniqueFO [3, 4, 3, 5] = [3, 4, 5] := by decide

example :
    bin_count_tracks [[⟨2001, 3, ⟩]] 2000 3 "W"
      = some [1, 0, 0] := by decide

example :
    bin_count_tracks [[⟨2002, 11⟩]] 2000 3 "W"
      = some [0, 0, 1] := by decide

example :
    bin_count_tracks [[⟨2000, 3⟩, ⟨2000, 3⟩, ⟨2000, 4⟩]] 2000 3 "M"
      = some [0, 0, 1, 1, 0, 0, 0, 0, 0, 0, 0, 0] := by decide

example : bin_count_tracks [] 2000 3 "x" = none := by decide

end Octant
